import Mathlib

/-!
Verification of the gdunit4-test-runner repository.

The Go source is embedded shallowly: pure functions become Lean functions,
filesystem access is modelled by an explicit filesystem value, machine `int`
becomes `Int`, Go `nil`-pointer optionality becomes `Option`, and fallible
functions return `Except String`.

Packages covered:
* `internal/report`  — JUnit XML model, failure extraction, crash scan,
  output aggregation and its JSON round-trip.
* `internal/detector` — project-root resolution (`Detect`, `findProjectRoot`,
  `verifyGdUnit4`, `toResPath`).
* `internal/runner`  — `BuildArgs` argument construction.
-/

/-! ## String helpers (models of Go standard-library functions) -/

/-- Model of `strings.Contains s pat` via scanning on character lists:
true iff `pat` occurs as a contiguous substring of `s` (the empty pattern
always occurs). -/
def charsContain (s pat : List Char) : Bool :=
  if pat.isPrefixOf s then true
  else
    match s with
    | [] => false
    | _ :: t => charsContain t pat

/-- Model of `strings.Contains` on `String`. -/
def strContains (s pat : String) : Bool :=
  charsContain s.toList pat.toList

/-- Model of `strings.HasPrefix` on `String`. -/
def strStartsWith (s pre : String) : Bool :=
  pre.toList.isPrefixOf s.toList

/-- The whitespace class `\s` of Go's `regexp` package (RE2): tab, newline,
form feed, carriage return and space. -/
def isRegexSpace (c : Char) : Bool :=
  c = ' ' || c = '\t' || c = '\n' || c = '\x0c' || c = '\r'

/-- The Latin-1 range of Go's `unicode.IsSpace` (used by `strings.TrimSpace`):
tab, newline, vertical tab, form feed, carriage return, space, NEL and NBSP.
Code points above Latin-1 in category Zs are not modelled; no claim depends
on them. -/
def isGoSpace (c : Char) : Bool :=
  c = ' ' || c = '\t' || c = '\n' || c = '\x0b' || c = '\x0c' || c = '\r' ||
  c = '\x85' || c = '\xa0'

/-- Model of `strings.TrimSpace`. -/
def trimSpace (s : String) : String :=
  ⟨((s.toList.dropWhile isGoSpace).reverse.dropWhile isGoSpace).reverse⟩

/-- Numeric value of a list of decimal digit characters. -/
def digitsToNat (ds : List Char) : Nat :=
  ds.foldl (fun n c => n * 10 + (c.toNat - ('0').toNat)) 0

/-- Model of `strconv.Atoi` on a nonempty all-digit string: returns the value
unless it overflows a 64-bit `int` (in which case `Atoi` errors and the
caller of the model keeps the zero default). -/
def atoiDigits (ds : List Char) : Option Int :=
  if digitsToNat ds ≤ 9223372036854775807 then some (digitsToNat ds) else none

/-! ## Regex models

`internal/report` uses two fixed regular expressions.  Both are implemented
here as scanning functions with RE2 leftmost-match semantics; every
subpattern boundary in the two regexes is deterministic (an adjacent literal
never belongs to the preceding character class), so greedy scanning without
backtracking is exact. -/

/-- Match a literal at the head of `s`, returning the rest. -/
def stripLit (lit s : List Char) : Option (List Char) :=
  if lit.isPrefixOf s then some (s.drop lit.length) else none

/-- Attempt to match `FAILED:\s*(res://[^:]+):(\d+)` anchored at the head of
`s`; on success return capture group 1 (including the literal prefix) and the
digit characters of group 2. -/
def matchLocAt (s : List Char) : Option (List Char × List Char) :=
  match stripLit ("FAILED:").toList s with
  | none => none
  | some s1 =>
    let s2 := s1.dropWhile isRegexSpace
    match stripLit ("res://").toList s2 with
    | none => none
    | some s3 =>
      let mid := s3.takeWhile (fun c => c ≠ ':')
      if mid.isEmpty then none
      else
        match s3.dropWhile (fun c => c ≠ ':') with
        | ':' :: r =>
          let ds := r.takeWhile Char.isDigit
          if ds.isEmpty then none
          else some (("res://").toList ++ mid, ds)
        | _ => none

/-- Leftmost match of `failedLocRe` over the whole string (the scan of
`regexp.FindStringSubmatch`). -/
def scanLoc (s : List Char) : Option (List Char × List Char) :=
  match matchLocAt s with
  | some r => some r
  | none =>
    match s with
    | [] => none
    | _ :: t => scanLoc t

/-- Attempt to match `Expected\s+'([^']*)'\s+but was\s+'([^']*)'` anchored at
the head of `s`; on success return the two captures. -/
def matchExpActAt (s : List Char) : Option (List Char × List Char) :=
  match stripLit ("Expected").toList s with
  | none => none
  | some s1 =>
    if (s1.takeWhile isRegexSpace).isEmpty then none
    else
      match s1.dropWhile isRegexSpace with
      | '\'' :: r1 =>
        let v1 := r1.takeWhile (fun c => c ≠ '\'')
        match r1.dropWhile (fun c => c ≠ '\'') with
        | '\'' :: r2 =>
          if (r2.takeWhile isRegexSpace).isEmpty then none
          else
            match stripLit ("but was").toList (r2.dropWhile isRegexSpace) with
            | none => none
            | some r3 =>
              if (r3.takeWhile isRegexSpace).isEmpty then none
              else
                match r3.dropWhile isRegexSpace with
                | '\'' :: r4 =>
                  let v2 := r4.takeWhile (fun c => c ≠ '\'')
                  match r4.dropWhile (fun c => c ≠ '\'') with
                  | '\'' :: _ => some (v1, v2)
                  | _ => none
                | _ => none
        | _ => none
      | _ => none

/-- Leftmost match of `expectedActualRe` over the whole string. -/
def scanExpAct (s : List Char) : Option (List Char × List Char) :=
  match matchExpActAt s with
  | some r => some r
  | none =>
    match s with
    | [] => none
    | _ :: t => scanExpAct t

/-! ## `internal/report`: data model (from `report.go`) -/

/-- A `<failure>` or `<error>` element (`JUnitFailure`). -/
structure JUnitFailure where
  Message : String
  Text : String
deriving DecidableEq, Repr

/-- A `<testcase>` element (`JUnitTestCase`); the failure and error children
are `nil`-able pointers in Go, hence `Option` here. -/
structure JUnitTestCase where
  Name : String
  Classname : String
  Failure : Option JUnitFailure
  Error : Option JUnitFailure
deriving DecidableEq, Repr

/-- A `<testsuite>` element (`JUnitTestSuite`). -/
structure JUnitTestSuite where
  Name : String
  Package : String
  Tests : Int
  Failures : Int
  Errors : Int
  TestCases : List JUnitTestCase
deriving DecidableEq, Repr

/-- The root `<testsuites>` element (`JUnitTestSuites`). -/
structure JUnitTestSuites where
  Tests : Int
  Failures : Int
  Errors : Int
  Suites : List JUnitTestSuite
deriving DecidableEq, Repr

/-- Crash/error information extracted from the Godot log (`CrashDetails` in
`report.go`: joined line strings, each omitted from JSON when empty). -/
structure CrashDetails where
  CrashInfo : String
  ScriptErrors : String
deriving DecidableEq, Repr

/-- A single extracted test failure (`Failure` in `report.go`). -/
structure Failure where
  Class : String
  Method : String
  File : String
  Line : Int
  Expected : String
  Actual : String
  Message : String
deriving DecidableEq, Repr

/-- Test result counts and overall status (`Summary` in `report.go`). -/
structure Summary where
  Total : Int
  Passed : Int
  Failed : Int
  Crashed : Bool
  Status : String
deriving DecidableEq, Repr

/-- The top-level JSON output (`Output` in `report.go`).  The Go field names
`Summary`/`CrashDetails` collide with their type names in Lean, so the fields
are lowercased. -/
structure Output where
  summary : Summary
  crashDetails : Option CrashDetails
  failures : List Failure
deriving DecidableEq, Repr

/-! ## `internal/report`: failure extraction (`ExtractFailures`) -/

/-- The enrichment of one chosen payload into a `Failure` record: the body of
the `for` loop of `ExtractFailures` after the payload `f` has been selected.
`File`/`Line` come from `failedLocRe` on the message, `Expected`/`Actual`
from `expectedActualRe` on the trimmed body; each is best-effort. -/
def buildFailure (tc : JUnitTestCase) (f : JUnitFailure) : Failure :=
  let base : Failure :=
    { Class := tc.Classname, Method := tc.Name, File := "", Line := 0,
      Expected := "", Actual := "", Message := f.Message }
  let withLoc :=
    match scanLoc f.Message.toList with
    | some (fileCs, digitCs) =>
      { base with
        File := ⟨fileCs⟩,
        Line := match atoiDigits digitCs with
                | some n => n
                | none => 0 }
    | none => base
  match scanExpAct (trimSpace f.Text).toList with
  | some (e, a) => { withLoc with Expected := ⟨e⟩, Actual := ⟨a⟩ }
  | none => withLoc

/-- Payload selection and extraction for one test case: `f := tc.Failure;
if f == nil { f = tc.Error }; if f == nil { continue }`. -/
def extractCase (tc : JUnitTestCase) : Option Failure :=
  let f := match tc.Failure with
           | some f => some f
           | none => tc.Error
  match f with
  | none => none
  | some f => some (buildFailure tc f)

/-- `ExtractFailures`: walk all suites and test cases in order, extracting a
record for every case that carries a failure or error payload. -/
def ExtractFailures (suites : JUnitTestSuites) : List Failure :=
  suites.Suites.flatMap (fun suite => suite.TestCases.filterMap extractCase)

/-! ## `internal/report`: aggregation (`BuildOutput`) -/

/-- `BuildOutput`: fold an optional parsed report and optional crash details
into the final `Output`. -/
def BuildOutput (suites : Option JUnitTestSuites) (crash : Option CrashDetails) :
    Output :=
  let failures := match suites with
                  | some s => ExtractFailures s
                  | none => []
  let crashed := crash.isSome
  let total : Int := match suites with
                     | some s => s.Tests
                     | none => 0
  let failed : Int := match suites with
                      | some s => s.Failures + s.Errors
                      | none => 0
  let passed0 := total - failed
  let passed := if passed0 < 0 then 0 else passed0
  let status := if crashed then "crashed"
                else if failed > 0 then "failed"
                else "passed"
  { summary :=
      { Total := total, Passed := passed, Failed := failed,
        Crashed := crashed, Status := status },
    crashDetails := crash,
    failures := failures }

/-! ## `internal/report`: crash scan

The crash scan exists in two revisions.  The revision present in the source
snapshot (`report.go`, `DetectCrash`) classifies each line of the log into
two sequences with a `switch` whose first matching case wins.  The current
revision — exercised by `report_test.go` (which reads an `EngineErrors`
field) and by the integration test's JSON schema — additionally collects
lines beginning with the generic `ERROR:` prefix; that revision's body is
not in the source tree and is modelled from the spec below. -/

/-- The scanner loop of `DetectCrash` (`report.go`): classify each line by a
`switch`; a line containing the crash marker goes to the crash sequence, and
only otherwise a line beginning with the script-error prefix goes to the
script-error sequence. -/
def detectCrashLines : List String → List String × List String
  | [] => ([], [])
  | line :: rest =>
    let (c, s) := detectCrashLines rest
    if strContains line "handle_crash:" then (line :: c, s)
    else if strStartsWith line "SCRIPT ERROR:" then (c, line :: s)
    else (c, s)

/-- `DetectCrash` (`report.go`): returns `none` when the scanner found
nothing, otherwise the two sequences joined with newlines. -/
def DetectCrash (lines : List String) : Option CrashDetails :=
  let (crashLines, scriptErrorLines) := detectCrashLines lines
  if crashLines.isEmpty && scriptErrorLines.isEmpty then none
  else some { CrashInfo := String.intercalate "\n" crashLines,
              ScriptErrors := String.intercalate "\n" scriptErrorLines }

/-- Modelled from the spec: the CrashSignal of the current crash scan, three
ordered sequences of matched lines (the `DetectCrash` revision whose
`EngineErrors` field `report_test.go` reads is not in the source tree). -/
structure CrashSignal where
  crashLines : List String
  scriptErrorLines : List String
  engineErrorLines : List String
deriving DecidableEq, Repr

/-- Modelled from the spec: the per-line classification loop of the current
crash scan.  Reading the captured output line by line: a line containing the
fixed crash-marker substring contributes to `crashLines`; a line beginning
with the fixed script-error prefix contributes to `scriptErrorLines`; a line
beginning with the fixed generic-error prefix contributes to
`engineErrorLines` (first matching case wins, as in the source revision's
`switch`). -/
def detectCrashScan : List String → List String × List String × List String
  | [] => ([], [], [])
  | line :: rest =>
    let (c, s, e) := detectCrashScan rest
    if strContains line "handle_crash:" then (line :: c, s, e)
    else if strStartsWith line "SCRIPT ERROR:" then (c, line :: s, e)
    else if strStartsWith line "ERROR:" then (c, s, line :: e)
    else (c, s, e)

/-- Modelled from the spec: the current `DetectCrash` — if all three
sequences are empty there is no CrashSignal (absence, not an empty
object). -/
def DetectCrashSpec (lines : List String) : Option CrashSignal :=
  let (c, s, e) := detectCrashScan lines
  if c.isEmpty && s.isEmpty && e.isEmpty then none
  else some { crashLines := c, scriptErrorLines := s, engineErrorLines := e }

/-! ## `internal/report`: JSON serialization (`WriteJSON`)

`WriteJSON` encodes the `Output` with `encoding/json` using the struct tags
of `report.go`; deserialization is `json.Unmarshal` into the same structure.
Both are modelled at the level of JSON values: `encodeOutput` produces the
document `WriteJSON` renders, and `decodeOutput` is `json.Unmarshal`
restricted to the shapes that can occur for this schema (absent key leaves
the zero value; `null` into a pointer leaves it `nil`; `null` into a slice,
string, number or bool leaves the zero value; a later duplicate key
overwrites an earlier one). -/

/-- JSON values. -/
inductive Json where
  | null
  | bool (b : Bool)
  | num (n : Int)
  | str (s : String)
  | arr (xs : List Json)
  | obj (fields : List (String × Json))
deriving Repr

/-- Last binding of a key in an object, `json.Unmarshal` keeping the last
occurrence of a duplicated key. -/
def lookupLast (fields : List (String × Json)) (key : String) : Option Json :=
  match fields with
  | [] => none
  | (k, v) :: rest =>
    match lookupLast rest key with
    | some r => some r
    | none => if k = key then some v else none

/-- `json:"summary"` etc. — encoding of `Summary` (no omitempty tags). -/
def encodeSummary (s : Summary) : Json :=
  .obj [("total", .num s.Total), ("passed", .num s.Passed),
        ("failed", .num s.Failed), ("crashed", .bool s.Crashed),
        ("status", .str s.Status)]

/-- Encoding of `CrashDetails`: both fields carry `omitempty`, so an empty
string is omitted. -/
def encodeCrashDetails (c : CrashDetails) : Json :=
  .obj ((if c.CrashInfo = "" then [] else [("crash_info", .str c.CrashInfo)]) ++
        (if c.ScriptErrors = "" then [] else [("script_errors", .str c.ScriptErrors)]))

/-- Encoding of one `Failure` (no omitempty tags). -/
def encodeFailure (f : Failure) : Json :=
  .obj [("class", .str f.Class), ("method", .str f.Method),
        ("file", .str f.File), ("line", .num f.Line),
        ("expected", .str f.Expected), ("actual", .str f.Actual),
        ("message", .str f.Message)]

/-- Encoding of the whole `Output`: `crash_details` carries `omitempty` on a
pointer, so it is omitted exactly when the pointer is `nil`; a `nil`
failures slice marshals as `null` and a non-nil one as an array — the list
model always encodes the array form, which is what `BuildOutput` produces
(it starts from a non-nil empty slice). -/
def encodeOutput (o : Output) : Json :=
  .obj ([("summary", encodeSummary o.summary)] ++
        (match o.crashDetails with
         | none => []
         | some c => [("crash_details", encodeCrashDetails c)]) ++
        [("failures", .arr (o.failures.map encodeFailure))])

/-- Decode an optional field into an `Int` (absent or `null`: zero value). -/
def decodeIntField (j : Option Json) : Option Int :=
  match j with
  | none => some 0
  | some .null => some 0
  | some (.num n) => some n
  | some _ => none

/-- Decode an optional field into a `String`. -/
def decodeStrField (j : Option Json) : Option String :=
  match j with
  | none => some ""
  | some .null => some ""
  | some (.str s) => some s
  | some _ => none

/-- Decode an optional field into a `Bool`. -/
def decodeBoolField (j : Option Json) : Option Bool :=
  match j with
  | none => some false
  | some .null => some false
  | some (.bool b) => some b
  | some _ => none

/-- Decode a `Summary` value. -/
def decodeSummary (j : Json) : Option Summary :=
  match j with
  | .obj fs =>
    match decodeIntField (lookupLast fs "total"),
          decodeIntField (lookupLast fs "passed"),
          decodeIntField (lookupLast fs "failed"),
          decodeBoolField (lookupLast fs "crashed"),
          decodeStrField (lookupLast fs "status") with
    | some t, some p, some f, some c, some st =>
      some { Total := t, Passed := p, Failed := f, Crashed := c, Status := st }
    | _, _, _, _, _ => none
  | _ => none

/-- Decode a `CrashDetails` object. -/
def decodeCrashDetails (j : Json) : Option CrashDetails :=
  match j with
  | .obj fs =>
    match decodeStrField (lookupLast fs "crash_info"),
          decodeStrField (lookupLast fs "script_errors") with
    | some ci, some se => some { CrashInfo := ci, ScriptErrors := se }
    | _, _ => none
  | _ => none

/-- Decode one `Failure` object. -/
def decodeFailure (j : Json) : Option Failure :=
  match j with
  | .obj fs =>
    match decodeStrField (lookupLast fs "class"),
          decodeStrField (lookupLast fs "method"),
          decodeStrField (lookupLast fs "file"),
          decodeIntField (lookupLast fs "line"),
          decodeStrField (lookupLast fs "expected"),
          decodeStrField (lookupLast fs "actual"),
          decodeStrField (lookupLast fs "message") with
    | some c, some m, some fi, some l, some e, some a, some msg =>
      some { Class := c, Method := m, File := fi, Line := l,
             Expected := e, Actual := a, Message := msg }
    | _, _, _, _, _, _, _ => none
  | _ => none

/-- Decode the elements of the failures array one by one. -/
def decodeFailuresArr : List Json → Option (List Failure)
  | [] => some []
  | j :: t =>
    match decodeFailure j, decodeFailuresArr t with
    | some f, some fs => some (f :: fs)
    | _, _ => none

/-- Decode the failures slice: absent key or `null` leaves the nil slice. -/
def decodeFailureList (j : Option Json) : Option (List Failure) :=
  match j with
  | none => some []
  | some .null => some []
  | some (.arr xs) => decodeFailuresArr xs
  | some _ => none

/-- Decode a full `Output` document. -/
def decodeOutput (j : Json) : Option Output :=
  match j with
  | .obj fs =>
    let sj := match lookupLast fs "summary" with
              | none => some { Total := 0, Passed := 0, Failed := 0,
                               Crashed := false, Status := "" }
              | some .null => some { Total := 0, Passed := 0, Failed := 0,
                                     Crashed := false, Status := "" }
              | some js => decodeSummary js
    let cj := match lookupLast fs "crash_details" with
              | none => some none
              | some .null => some none
              | some jc => (decodeCrashDetails jc).map some
    match sj, cj, decodeFailureList (lookupLast fs "failures") with
    | some s, some c, some fl =>
      some { summary := s, crashDetails := c, failures := fl }
    | _, _, _ => none
  | _ => none

/-! ## `internal/runner`: argument construction (`BuildArgs`) -/

/-- `BuildArgs` (`runner.go`): opening flags, the tool-script path, one
flag/value pair per reference path appended in a loop, then the closing
flags. -/
def BuildArgs (resPaths : List String) : List String :=
  let args := ["--headless", "-s", "-d",
               "res://addons/gdUnit4/bin/GdUnitCmdTool.gd"]
  let args := resPaths.foldl (fun acc p => acc ++ ["-a", p]) args
  args ++ ["--ignoreHeadlessMode", "-c"]

/-! ## `internal/detector`: project-root resolution

Filesystem paths are modelled as lists of name components below the
filesystem root (so `[]` is `/`), assuming components contain no separator
characters; `filepath.Dir` is `List.dropLast`, `filepath.Join` is append.
`filepath.Abs` is the identity on this model: inputs are taken to be
already-absolute, which loses nothing for the claims (they quantify over
the resolved absolute paths).  The filesystem itself is a function from
paths to an optional entry kind, modelling what `os.Stat` reports. -/

/-- What `os.Stat` can report for a path: absent, a file, or a directory. -/
inductive FsEntry where
  | file
  | dir
deriving DecidableEq, Repr

/-- A filesystem: `entry p = none` means `os.Stat` fails for `p`. -/
structure FS where
  entry : List String → Option FsEntry

/-- Render a component-list path the way Go prints the string (used only in
error messages). -/
def pathToString (p : List String) : String :=
  "/" ++ String.intercalate "/" p

/-- The upward-walk loop of `findProjectRoot`, on the reversed component
list so that taking the parent directory (`filepath.Dir`) is structural:
check the current directory for the `project.godot` marker (`os.Stat`
succeeding on any entry kind, as in the source), return it on a hit, stop
with an error after checking the filesystem root. -/
def walkUpAux (fs : FS) : List String → Except String (List String)
  | [] =>
    if (fs.entry ["project.godot"]).isSome then .ok []
    else .error "project.godot not found; point the path to a subdirectory of your Godot project"
  | c :: t =>
    if (fs.entry ((c :: t).reverse ++ ["project.godot"])).isSome then .ok (c :: t).reverse
    else walkUpAux fs t

/-- Walk upward from directory `dir` looking for the marker. -/
def walkUp (fs : FS) (dir : List String) : Except String (List String) :=
  walkUpAux fs dir.reverse

/-- `findProjectRoot` (`detector.go`): start from the path itself if it is a
directory, from its containing directory if it is a file; fail if the path
cannot be accessed. -/
def findProjectRoot (fs : FS) (startPath : List String) : Except String (List String) :=
  match fs.entry startPath with
  | none => .error "cannot access path"
  | some .dir => walkUp fs startPath
  | some .file => walkUp fs startPath.dropLast

/-- `verifyGdUnit4` (`detector.go`): `addons/gdUnit4` must exist directly
under the project root and be a directory. -/
def verifyGdUnit4 (fs : FS) (projectDir : List String) : Except String Unit :=
  match fs.entry (projectDir ++ ["addons", "gdUnit4"]) with
  | some .dir => .ok ()
  | _ => .error ("addons/gdUnit4/ not found under " ++ pathToString projectDir)

/-- `toResPath` (`detector.go`): the path relative to the project root
(`filepath.Rel`, which yields `"."` for the root itself and otherwise the
slash-joined remaining components — the inputs reaching it in `Detect` are
always at or below the root), rewritten under the `res://` prefix. -/
def toResPath (projectDir testPath : List String) : Except String String :=
  if projectDir = testPath then .ok ("res://" ++ ".")
  else if projectDir.isPrefixOf testPath then
    .ok ("res://" ++ String.intercalate "/" (testPath.drop projectDir.length))
  else .error "failed to compute res:// path"

/-- The per-path loop of `Detect`: re-run the upward walk for every input
(including the first), fail on a walk error or on a root differing from the
canonical one, otherwise collect the reference paths in input order. -/
def detectLoop (fs : FS) (projectDir : List String) :
    List (List String) → Except String (List String)
  | [] => .ok []
  | p :: rest =>
    match findProjectRoot fs p with
    | .error e => .error ("path " ++ pathToString p ++ ": " ++ e)
    | .ok root =>
      if root = projectDir then
        match toResPath projectDir p with
        | .error e => .error e
        | .ok rp => (detectLoop fs projectDir rest).map (fun rs => rp :: rs)
      else
        .error ("path " ++ pathToString p ++
                " belongs to a different Godot project (" ++ pathToString root ++
                "), expected " ++ pathToString projectDir)

/-- Result of project detection (`Result` in `detector.go`). -/
structure DetectResult where
  ProjectDir : List String
  ResPaths : List String
deriving DecidableEq, Repr

/-- `Detect` (`detector.go`): reject an empty input list, find the canonical
root from the first path, verify the add-on directory, then validate and
convert every input path. -/
def Detect (fs : FS) (testPaths : List (List String)) : Except String DetectResult :=
  match testPaths with
  | [] => .error "no test paths provided"
  | first :: _ =>
    match findProjectRoot fs first with
    | .error e => .error e
    | .ok projectDir =>
      match verifyGdUnit4 fs projectDir with
      | .error e => .error e
      | .ok _ =>
        match detectLoop fs projectDir testPaths with
        | .error e => .error e
        | .ok resPaths => .ok { ProjectDir := projectDir, ResPaths := resPaths }

/-! ## Concrete fixtures used by witness theorems -/

/-- A concrete filesystem with one Godot project at `/proj` (marker file and
add-on directory present) and a test directory two levels below it. -/
def fsOne : FS where
  entry p :=
    if p = [] then some .dir
    else if p = ["proj"] then some .dir
    else if p = ["proj", "project.godot"] then some .file
    else if p = ["proj", "addons"] then some .dir
    else if p = ["proj", "addons", "gdUnit4"] then some .dir
    else if p = ["proj", "tests"] then some .dir
    else if p = ["proj", "tests", "unit"] then some .dir
    else if p = ["proj", "tests", "unit", "test_a.gd"] then some .file
    else none

/-- A concrete filesystem with two sibling Godot projects `/a` and `/b`. -/
def fsTwo : FS where
  entry p :=
    if p = [] then some .dir
    else if p = ["a"] then some .dir
    else if p = ["a", "project.godot"] then some .file
    else if p = ["a", "addons"] then some .dir
    else if p = ["a", "addons", "gdUnit4"] then some .dir
    else if p = ["a", "tests"] then some .dir
    else if p = ["b"] then some .dir
    else if p = ["b", "project.godot"] then some .file
    else if p = ["b", "tests"] then some .dir
    else none

/-! # Theorems -/

/-! ## Helper lemmas -/

/-- Unfolding the `BuildArgs` accumulation loop. -/
theorem buildArgs_foldl (l acc : List String) :
    l.foldl (fun acc p => acc ++ ["-a", p]) acc =
      acc ++ l.flatMap (fun p => ["-a", p]) := by
  induction l generalizing acc with
  | nil => simp
  | cons h t ih => simp [ih, List.append_assoc]

/-! ## C7 — argument construction -/

/-- C7: for every list of N reference paths, `BuildArgs` produces exactly the
headless flag, the script-execution flag pair with the fixed tool-script
path, then one `-a`/path pair per reference path in input order, then the
headless-warning-suppression flag and the immediate-exit flag — nothing
more and in no other order. -/
theorem buildArgs_exact_sequence (resPaths : List String) :
    BuildArgs resPaths =
      ["--headless", "-s", "-d", "res://addons/gdUnit4/bin/GdUnitCmdTool.gd"] ++
      resPaths.flatMap (fun p => ["-a", p]) ++
      ["--ignoreHeadlessMode", "-c"] := by
  simp only [BuildArgs, buildArgs_foldl, List.append_assoc]

/-! ## C2 — output aggregation -/

/-- C2: `BuildOutput` takes total and failed from the report header
(`failed = failures + errors`) when a report exists and zero otherwise,
floors passed at zero, and derives the status: crashed when a crash signal
is present, else failed when the failed count is positive, else passed; in
particular a 10/2/0 report with no crash yields the summary
10/8/2/failed. -/
theorem buildOutput_summary_correct (suites : Option JUnitTestSuites)
    (crash : Option CrashDetails) :
    (BuildOutput suites crash).summary.Total =
      (match suites with | some s => s.Tests | none => 0) ∧
    (BuildOutput suites crash).summary.Failed =
      (match suites with | some s => s.Failures + s.Errors | none => 0) ∧
    (BuildOutput suites crash).summary.Passed =
      max ((BuildOutput suites crash).summary.Total -
           (BuildOutput suites crash).summary.Failed) 0 ∧
    (BuildOutput suites crash).summary.Status =
      (if crash.isSome then "crashed"
       else if 0 < (BuildOutput suites crash).summary.Failed then "failed"
       else "passed") ∧
    (BuildOutput (some { Tests := 10, Failures := 2, Errors := 0, Suites := [] })
        none).summary =
      { Total := 10, Passed := 8, Failed := 2, Crashed := false,
        Status := "failed" } := by
  refine ⟨?_, ?_, ?_, ?_, by decide⟩ <;>
    cases suites <;> cases crash <;> simp [BuildOutput] <;> omega

/-! ## C9 — empty input list -/

/-- C9: `Detect` on an empty list of input paths returns the
no-test-paths error, for every filesystem — in particular without any
filesystem access. -/
theorem detect_empty_paths_error (fs : FS) :
    Detect fs [] = .error "no test paths provided" := rfl

/-! ## C3 — payload precedence in failure extraction -/

/-- The enrichment never changes the message: it always carries the chosen
payload's raw message. -/
theorem buildFailure_message (tc : JUnitTestCase) (f : JUnitFailure) :
    (buildFailure tc f).Message = f.Message := by
  unfold buildFailure
  repeat' split
  all_goals rfl

/-- C3 (counterexample): on a test case carrying both a failure payload and
an error payload, extraction uses the failure payload's message, not the
error payload's — the claim predicts the message of the error payload. -/
theorem extractFailures_error_precedence_cex :
    (ExtractFailures
      { Tests := 1, Failures := 1, Errors := 0, Suites := [
        { Name := "s", Package := "p", Tests := 1, Failures := 1, Errors := 0,
          TestCases := [
            { Name := "test_both", Classname := "C",
              Failure := some { Message := "failure message", Text := "" },
              Error := some { Message := "error message", Text := "" } }] }] }).map
        (fun f => f.Message) = ["failure message"] ∧
    ¬ ((ExtractFailures
      { Tests := 1, Failures := 1, Errors := 0, Suites := [
        { Name := "s", Package := "p", Tests := 1, Failures := 1, Errors := 0,
          TestCases := [
            { Name := "test_both", Classname := "C",
              Failure := some { Message := "failure message", Text := "" },
              Error := some { Message := "error message", Text := "" } }] }] }).map
        (fun f => f.Message) = ["error message"]) := by
  decide

/-- C3 (amended): for every test-case record carrying both a failure payload
and an error payload, `ExtractFailures` uses the failure payload's message
and body — the failure payload takes precedence (it is checked first); the
error payload is used only when the failure payload is absent. -/
theorem extractFailures_failure_precedence (tc : JUnitTestCase)
    (f er : JUnitFailure) (hf : tc.Failure = some f) (he : tc.Error = some er) :
    extractCase tc = some (buildFailure tc f) ∧
    (extractCase tc).map (fun r => r.Message) = some f.Message := by
  have h1 : extractCase tc = some (buildFailure tc f) := by
    unfold extractCase
    rw [hf]
  exact ⟨h1, by rw [h1]; simp [buildFailure_message]⟩

/-- C3 witness: the amended precedence theorem applied to a concrete record
carrying both payloads. -/
theorem extractFailures_failure_precedence_witness :
    extractCase
      { Name := "t", Classname := "C",
        Failure := some { Message := "fmsg", Text := "" },
        Error := some { Message := "emsg", Text := "" } } =
      some (buildFailure
        { Name := "t", Classname := "C",
          Failure := some { Message := "fmsg", Text := "" },
          Error := some { Message := "emsg", Text := "" } }
        { Message := "fmsg", Text := "" }) ∧
    (extractCase
      { Name := "t", Classname := "C",
        Failure := some { Message := "fmsg", Text := "" },
        Error := some { Message := "emsg", Text := "" } }).map
      (fun r => r.Message) = some "fmsg" :=
  extractFailures_failure_precedence
    { Name := "t", Classname := "C",
      Failure := some { Message := "fmsg", Text := "" },
      Error := some { Message := "emsg", Text := "" } }
    { Message := "fmsg", Text := "" } { Message := "emsg", Text := "" } rfl rfl

/-! ## C10 / C1 — crash scan -/

/-- The source scanner's crash sequence is the sublist of lines containing
the crash marker. -/
theorem detectCrashLines_fst (lines : List String) :
    (detectCrashLines lines).1 =
      lines.filter (fun l => strContains l "handle_crash:") := by
  induction lines with
  | nil => rfl
  | cons a t ih =>
    simp only [detectCrashLines]
    cases h : detectCrashLines t with
    | mk c s =>
      rw [h] at ih
      split_ifs <;> simp_all [List.filter_cons]

/-- The source scanner's script-error sequence is the sublist of lines that
begin with the script-error prefix and do not contain the crash marker. -/
theorem detectCrashLines_snd (lines : List String) :
    (detectCrashLines lines).2 =
      lines.filter (fun l =>
        !strContains l "handle_crash:" && strStartsWith l "SCRIPT ERROR:") := by
  induction lines with
  | nil => rfl
  | cons a t ih =>
    simp only [detectCrashLines]
    cases h : detectCrashLines t with
    | mk c s =>
      rw [h] at ih
      split_ifs <;> simp_all [List.filter_cons]

/-- C10: in the crash scan every log line is classified into at most one
category — a line that contains the crash-marker substring goes to the
crash-lines sequence and is never also counted as a script-error line, even
when it simultaneously begins with the script-error prefix. -/
theorem detectCrash_marker_precedence (lines : List String) (l : String)
    (hmem : l ∈ lines) (hc : strContains l "handle_crash:" = true) :
    l ∈ (detectCrashLines lines).1 ∧ l ∉ (detectCrashLines lines).2 := by
  rw [detectCrashLines_fst, detectCrashLines_snd]
  constructor
  · exact List.mem_filter.mpr ⟨hmem, hc⟩
  · intro habs
    have := (List.mem_filter.mp habs).2
    rw [hc] at this
    simp at this

/-- C10 witness: a line that both contains the crash marker and begins with
the script-error prefix is counted as a crash line only. -/
theorem detectCrash_marker_precedence_witness :
    "SCRIPT ERROR: then handle_crash: boom" ∈
      (detectCrashLines
        ["SCRIPT ERROR: then handle_crash: boom", "SCRIPT ERROR: other"]).1 ∧
    "SCRIPT ERROR: then handle_crash: boom" ∉
      (detectCrashLines
        ["SCRIPT ERROR: then handle_crash: boom", "SCRIPT ERROR: other"]).2 :=
  detectCrash_marker_precedence
    ["SCRIPT ERROR: then handle_crash: boom", "SCRIPT ERROR: other"]
    "SCRIPT ERROR: then handle_crash: boom" (by decide) (by decide)

/-- The spec-modelled scanner is the triple of filters with precedence. -/
theorem detectCrashScan_eq (lines : List String) :
    detectCrashScan lines =
      (lines.filter (fun l => strContains l "handle_crash:"),
       lines.filter (fun l =>
         !strContains l "handle_crash:" && strStartsWith l "SCRIPT ERROR:"),
       lines.filter (fun l =>
         !strContains l "handle_crash:" && !strStartsWith l "SCRIPT ERROR:" &&
         strStartsWith l "ERROR:")) := by
  induction lines with
  | nil => rfl
  | cons a t ih =>
    simp only [detectCrashScan]
    rw [ih]
    split_ifs <;> simp_all [List.filter_cons]

/-- Equation form of the spec-modelled crash scan. -/
theorem detectCrashSpec_eq (lines : List String) :
    DetectCrashSpec lines =
      (if (lines.filter (fun l => strContains l "handle_crash:")).isEmpty &&
          (lines.filter (fun l =>
            !strContains l "handle_crash:" &&
            strStartsWith l "SCRIPT ERROR:")).isEmpty &&
          (lines.filter (fun l =>
            !strContains l "handle_crash:" && !strStartsWith l "SCRIPT ERROR:" &&
            strStartsWith l "ERROR:")).isEmpty
       then none
       else some
         { crashLines := lines.filter (fun l => strContains l "handle_crash:"),
           scriptErrorLines := lines.filter (fun l =>
             !strContains l "handle_crash:" && strStartsWith l "SCRIPT ERROR:"),
           engineErrorLines := lines.filter (fun l =>
             !strContains l "handle_crash:" && !strStartsWith l "SCRIPT ERROR:" &&
             strStartsWith l "ERROR:") }) := by
  unfold DetectCrashSpec
  rw [detectCrashScan_eq]

/-- C1: the crash scan classifies the log's lines into the three sequences —
crash-marker lines, script-error-prefixed lines, generic-error-prefixed
lines — and returns no CrashSignal exactly when all three are empty; a log
with a crash-marker line and no error-prefixed lines yields a signal with a
non-empty crash sequence and empty error sequences, and a log with none of
the markers yields no signal at all. -/
theorem detectCrashSpec_classification (lines : List String) :
    (DetectCrashSpec lines =
      (if (lines.filter (fun l => strContains l "handle_crash:")).isEmpty &&
          (lines.filter (fun l =>
            !strContains l "handle_crash:" &&
            strStartsWith l "SCRIPT ERROR:")).isEmpty &&
          (lines.filter (fun l =>
            !strContains l "handle_crash:" && !strStartsWith l "SCRIPT ERROR:" &&
            strStartsWith l "ERROR:")).isEmpty
       then none
       else some
         { crashLines := lines.filter (fun l => strContains l "handle_crash:"),
           scriptErrorLines := lines.filter (fun l =>
             !strContains l "handle_crash:" && strStartsWith l "SCRIPT ERROR:"),
           engineErrorLines := lines.filter (fun l =>
             !strContains l "handle_crash:" && !strStartsWith l "SCRIPT ERROR:" &&
             strStartsWith l "ERROR:") })) ∧
    (DetectCrashSpec lines = none ↔
      lines.all (fun l =>
        !strContains l "handle_crash:" && !strStartsWith l "SCRIPT ERROR:" &&
        !strStartsWith l "ERROR:") = true) ∧
    DetectCrashSpec ["handle_crash: core dumped", "ordinary line"] =
      some { crashLines := ["handle_crash: core dumped"],
             scriptErrorLines := [], engineErrorLines := [] } ∧
    DetectCrashSpec ["ordinary line"] = none := by
  refine ⟨detectCrashSpec_eq lines, ?_, by decide, by decide⟩
  have key :
      ((lines.filter (fun l => strContains l "handle_crash:")).isEmpty &&
       (lines.filter (fun l =>
         !strContains l "handle_crash:" &&
         strStartsWith l "SCRIPT ERROR:")).isEmpty &&
       (lines.filter (fun l =>
         !strContains l "handle_crash:" && !strStartsWith l "SCRIPT ERROR:" &&
         strStartsWith l "ERROR:")).isEmpty) = true ↔
      lines.all (fun l =>
        !strContains l "handle_crash:" && !strStartsWith l "SCRIPT ERROR:" &&
        !strStartsWith l "ERROR:") = true := by
    simp only [Bool.and_eq_true, List.isEmpty_iff, List.filter_eq_nil_iff,
      List.all_eq_true]
    constructor
    · rintro ⟨⟨h1, h2⟩, h3⟩ l hl
      have e1 := h1 l hl
      have e2 := h2 l hl
      have e3 := h3 l hl
      cases hc : strContains l "handle_crash:" <;>
        cases hs : strStartsWith l "SCRIPT ERROR:" <;>
        cases herr : strStartsWith l "ERROR:" <;> simp_all
    · intro h
      refine ⟨⟨fun l hl => ?_, fun l hl => ?_⟩, fun l hl => ?_⟩ <;>
        have := h l hl <;> simp_all
  rw [detectCrashSpec_eq lines]
  constructor
  · intro h
    by_cases hb :
        ((lines.filter (fun l => strContains l "handle_crash:")).isEmpty &&
         (lines.filter (fun l =>
           !strContains l "handle_crash:" &&
           strStartsWith l "SCRIPT ERROR:")).isEmpty &&
         (lines.filter (fun l =>
           !strContains l "handle_crash:" &&
           !strStartsWith l "SCRIPT ERROR:" &&
           strStartsWith l "ERROR:")).isEmpty) = true
    · exact key.mp hb
    · rw [if_neg hb] at h
      exact absurd h (by simp)
  · intro h
    rw [if_pos (key.mpr h)]

/-! ## C8 — JSON round-trip -/

/-- Decoding inverts encoding for one `Failure`. -/
theorem decodeFailure_encode (f : Failure) :
    decodeFailure (encodeFailure f) = some f := by
  simp [encodeFailure, decodeFailure, lookupLast, decodeIntField, decodeStrField]

/-- Decoding inverts encoding for the failures array. -/
theorem decodeFailuresArr_encode (l : List Failure) :
    decodeFailuresArr (l.map encodeFailure) = some l := by
  induction l with
  | nil => rfl
  | cons f t ih => simp [decodeFailuresArr, decodeFailure_encode, ih]

/-- C8: serializing an `Output` with `WriteJSON` and deserializing the
produced document yields the original value in every field — summary
counts, crashed flag, status, optional crash details, and the ordered
failures list. -/
theorem writeJSON_roundTrip (o : Output) :
    decodeOutput (encodeOutput o) = some o := by
  obtain ⟨s, cd, fl⟩ := o
  cases cd with
  | none =>
    simp [encodeOutput, decodeOutput, lookupLast, encodeSummary, decodeSummary,
      decodeIntField, decodeBoolField, decodeStrField, decodeFailureList,
      decodeFailuresArr_encode]
  | some c =>
    obtain ⟨ci, se⟩ := c
    by_cases h1 : ci = "" <;> by_cases h2 : se = "" <;>
      simp [encodeOutput, decodeOutput, lookupLast, encodeSummary, decodeSummary,
        encodeCrashDetails, decodeCrashDetails, decodeIntField, decodeBoolField,
        decodeStrField, decodeFailureList, decodeFailuresArr_encode, h1, h2]

/-! ## C5 / C6 — project-root resolution -/

/-- A directory that itself carries the marker is returned by the upward
walk immediately. -/
theorem walkUp_marker (fs : FS) (d : List String)
    (h : (fs.entry (d ++ ["project.godot"])).isSome = true) :
    walkUp fs d = .ok d := by
  unfold walkUp
  cases hrev : d.reverse with
  | nil =>
    have hd : d = [] := by simpa using congrArg List.reverse hrev
    subst hd
    unfold walkUpAux
    rw [if_pos (by simpa using h)]
  | cons c t =>
    have hd : d = (c :: t).reverse := by
      rw [← List.reverse_reverse d, hrev]
    unfold walkUpAux
    rw [← hd, if_pos h]

/-- Popping one component when the current directory has no marker. -/
theorem walkUpAux_cons (fs : FS) (c : String) (t : List String)
    (h : (fs.entry ((c :: t).reverse ++ ["project.godot"])).isSome = false) :
    walkUpAux fs (c :: t) = walkUpAux fs t := by
  conv_lhs => unfold walkUpAux
  rw [if_neg (by simpa using h)]

/-- The upward walk only ever returns a prefix of its starting directory. -/
theorem walkUpAux_ok_ancestor (fs : FS) :
    ∀ (rev r : List String), walkUpAux fs rev = .ok r → r <+: rev.reverse := by
  intro rev
  induction rev with
  | nil =>
    intro r h
    unfold walkUpAux at h
    split at h
    · cases h
      exact List.prefix_refl _
    · cases h
  | cons c t ih =>
    intro r h
    unfold walkUpAux at h
    split at h
    · cases h
      exact List.prefix_refl _
    · have := ih r h
      refine this.trans ?_
      rw [List.reverse_cons]
      exact List.prefix_append _ _

/-- `findProjectRoot` only ever returns an ancestor (prefix) of its input
path. -/
theorem findProjectRoot_ok_ancestor (fs : FS) (p r : List String)
    (h : findProjectRoot fs p = .ok r) : r <+: p := by
  unfold findProjectRoot at h
  split at h
  · cases h
  · have := walkUpAux_ok_ancestor fs p.reverse r h
    simpa using this
  · have := walkUpAux_ok_ancestor fs p.dropLast.reverse r h
    rw [List.reverse_reverse] at this
    have hdp := List.dropLast_prefix p
    exact this.trans hdp

/-- The upward walk from `R ++ ds` reaches `R` when `R` carries the marker
and no directory strictly below it (between `R` and the start) does. -/
theorem walkUp_finds (fs : FS) (R : List String)
    (hm : (fs.entry (R ++ ["project.godot"])).isSome = true) :
    ∀ ds : List String,
      (∀ n < ds.length,
        (fs.entry (R ++ ds.take (n + 1) ++ ["project.godot"])).isSome = false) →
      walkUp fs (R ++ ds) = .ok R := by
  intro ds
  induction ds using List.reverseRecOn with
  | nil =>
    intro _
    rw [List.append_nil]
    exact walkUp_marker fs R hm
  | append_singleton t a ih =>
    intro hno
    have hfull : (fs.entry (R ++ (t ++ [a]) ++ ["project.godot"])).isSome = false := by
      have h1 := hno t.length (by simp)
      rw [show t.length + 1 = (t ++ [a]).length by simp, List.take_length] at h1
      exact h1
    have hrev : (R ++ (t ++ [a])).reverse = a :: (R ++ t).reverse := by simp
    have hstep : walkUp fs (R ++ (t ++ [a])) = walkUp fs (R ++ t) := by
      unfold walkUp
      rw [hrev]
      exact walkUpAux_cons fs a ((R ++ t).reverse) (by simpa using hfull)
    rw [hstep]
    refine ih (fun n hn => ?_)
    have h2 := hno n (by simp; omega)
    rwa [List.take_append_of_le_length (by omega)] at h2

/-- C5: for every input path at any depth below a directory `R` carrying the
marker file `project.godot` — with no marker in any directory strictly
between — resolution returns `R` as the project root (for a file input the
walk starts at its containing directory), the reference path is the input's
path relative to `R` with forward slashes under the `res://` prefix, and an
input equal to the root itself yields `res://.`. -/
theorem findProjectRoot_nearest_ancestor (fs : FS) (R cs : List String)
    (e : FsEntry)
    (hP : fs.entry (R ++ cs) = some e)
    (hm : (fs.entry (R ++ ["project.godot"])).isSome = true)
    (hfile : e = .file → cs ≠ [])
    (hno : ∀ n < (if e = .file then cs.dropLast else cs).length,
      (fs.entry (R ++ (if e = .file then cs.dropLast else cs).take (n + 1) ++
        ["project.godot"])).isSome = false) :
    findProjectRoot fs (R ++ cs) = .ok R ∧
    toResPath R (R ++ cs) =
      .ok (if cs = [] then "res://."
           else "res://" ++ String.intercalate "/" cs) ∧
    toResPath R R = .ok "res://." := by
  refine ⟨?_, ?_, ?_⟩
  · unfold findProjectRoot
    rw [hP]
    cases e with
    | dir =>
      have hno' : ∀ n < cs.length,
          (fs.entry (R ++ cs.take (n + 1) ++ ["project.godot"])).isSome = false := by
        simpa using hno
      exact walkUp_finds fs R hm cs hno'
    | file =>
      have hcs := hfile rfl
      have hno' : ∀ n < cs.dropLast.length,
          (fs.entry (R ++ cs.dropLast.take (n + 1) ++
            ["project.godot"])).isSome = false := by
        simpa using hno
      rw [List.dropLast_append_of_ne_nil R hcs]
      exact walkUp_finds fs R hm cs.dropLast hno'
  · by_cases hcs : cs = []
    · subst hcs
      rw [List.append_nil]
      unfold toResPath
      rw [if_pos rfl, if_pos rfl]
      exact congrArg Except.ok (by decide)
    · have hne : ¬(R = R ++ cs) := by
        intro h
        have hlen := congrArg List.length h
        rw [List.length_append] at hlen
        exact hcs (List.length_eq_zero.mp (by omega))
      unfold toResPath
      rw [if_neg hne, if_pos (by simp), if_neg hcs, List.drop_left]
  · unfold toResPath
    rw [if_pos rfl]
    exact congrArg Except.ok (by decide)

/-- C5 witness: the resolution theorem applied to the concrete project at
`/proj` with the test directory `tests/unit` two levels below the root. -/
theorem findProjectRoot_nearest_ancestor_witness :
    findProjectRoot fsOne (["proj"] ++ ["tests", "unit"]) = .ok ["proj"] ∧
    toResPath ["proj"] (["proj"] ++ ["tests", "unit"]) =
      .ok (if (["tests", "unit"] : List String) = [] then "res://."
           else "res://" ++ String.intercalate "/" ["tests", "unit"]) ∧
    toResPath ["proj"] ["proj"] = .ok "res://." :=
  findProjectRoot_nearest_ancestor fsOne ["proj"] ["tests", "unit"] .dir
    (by decide) (by decide) (by decide) (by decide)

/-- `toResPath` succeeds whenever the root is an ancestor of the path. -/
theorem toResPath_ok_of_ancestor (r p : List String) (h : r <+: p) :
    ∃ x, toResPath r p = .ok x := by
  unfold toResPath
  by_cases h1 : r = p
  · rw [if_pos h1]
    exact ⟨_, rfl⟩
  · rw [if_neg h1, if_pos (by simpa using h)]
    exact ⟨_, rfl⟩

/-- The per-path loop fails with the different-project error at the first
path whose re-run walk yields a root other than the canonical one. -/
theorem detectLoop_mismatch (fs : FS) (r0 q rq : List String)
    (post : List (List String))
    (hq : findProjectRoot fs q = .ok rq) (hne : rq ≠ r0) :
    ∀ pre : List (List String),
      (∀ p ∈ pre, findProjectRoot fs p = .ok r0) →
      detectLoop fs r0 (pre ++ q :: post) =
        .error ("path " ++ pathToString q ++
                " belongs to a different Godot project (" ++ pathToString rq ++
                "), expected " ++ pathToString r0) := by
  intro pre
  induction pre with
  | nil =>
    intro _
    simp only [List.nil_append, detectLoop, hq]
    rw [if_neg hne]
  | cons p pre' ih =>
    intro hp
    have hphead : findProjectRoot fs p = .ok r0 := hp p (List.mem_cons_self p pre')
    obtain ⟨x, hx⟩ :=
      toResPath_ok_of_ancestor r0 p (findProjectRoot_ok_ancestor fs p r0 hphead)
    have hrest := ih (fun p2 hp2 => hp p2 (List.mem_cons_of_mem p hp2))
    simp only [List.cons_append, detectLoop, hphead, hx, reduceIte,
      Except.map, List.append_eq, hrest]

/-- C6: when some input path's nearest marker-containing ancestor differs
from the canonical root discovered from the first path, `Detect` fails, and
the error text names the offending path, the cross-project mismatch, and the
differing root. -/
theorem detect_cross_project_error (fs : FS) (p0 q r0 rq : List String)
    (pre post : List (List String))
    (hpre : ∀ p ∈ p0 :: pre, findProjectRoot fs p = .ok r0)
    (haddon : fs.entry (r0 ++ ["addons", "gdUnit4"]) = some .dir)
    (hq : findProjectRoot fs q = .ok rq) (hne : rq ≠ r0) :
    Detect fs (p0 :: (pre ++ q :: post)) =
      .error ("path " ++ pathToString q ++
              " belongs to a different Godot project (" ++ pathToString rq ++
              "), expected " ++ pathToString r0) := by
  have h0 : findProjectRoot fs p0 = .ok r0 := hpre p0 (List.mem_cons_self p0 pre)
  have hloop := detectLoop_mismatch fs r0 q rq post hq hne (p0 :: pre) hpre
  rw [List.cons_append] at hloop
  simp only [Detect, h0, verifyGdUnit4, haddon, hloop]

/-- C6 witness: two inputs living under the sibling projects `/a` and `/b`
make `Detect` fail naming `/b/tests` and its root `/b`. -/
theorem detect_cross_project_error_witness :
    Detect fsTwo [["a", "tests"], ["b", "tests"]] =
      .error ("path " ++ pathToString ["b", "tests"] ++
              " belongs to a different Godot project (" ++ pathToString ["b"] ++
              "), expected " ++ pathToString ["a"]) := by
  have h := detect_cross_project_error fsTwo ["a", "tests"] ["b", "tests"]
    ["a"] ["b"] [] []
    (by
      intro p hp
      have : p = ["a", "tests"] := by simpa using hp
      subst this
      rfl)
    rfl rfl (by decide)
  simpa using h
